import Mathlib

/-!
Shallow embedding of the statistics engine of the hanabi-live client
(`packages/client/src/game/rules/stats.ts`) and the parts of the game data
model it reads.  Numbers in the TypeScript source are JS numbers holding
integers (and, for clue values, halves), modelled here as `Int`/`Rat`.
Helper predicates imported by `stats.ts` from other modules
(`isCardClued`, `isHandLocked`, `isCardNeedsToBePlayed`,
`isAllCardPossibilitiesTrash`, `getNumCopiesOfCard`,
`getNumDiscardedCopiesOfCard`) are abstracted as explicit function
parameters, bundled in a `GameRules` structure, so theorems quantify over
every possible behaviour of those modules.
-/

/-- Direction of a play stack (only passed through to helper predicates). -/
abbrev StackDirection := Nat

/-- Where a card currently is: undrawn deck, a player's hand (by player
index, the TS code stores the player index as a number in `location`),
the play stacks, or the discard pile. -/
inductive CardLocation where
  | deck : CardLocation
  | hand : Nat → CardLocation
  | playStack : CardLocation
  | discard : CardLocation
deriving DecidableEq, Repr

/-- The fields of `CardState` that the statistics engine reads. -/
structure CardState where
  order : Nat
  suitIndex : Option Nat
  rank : Option Nat
  location : CardLocation
  isMisplayed : Bool
  possibleCardsFromClues : List (Nat × Nat)
deriving DecidableEq, Repr

/-- A player's private note on a card (fields read by the stats engine). -/
structure CardNote where
  knownTrash : Bool
  unclued : Bool
  clued : Bool
  finessed : Bool
deriving DecidableEq, Repr

/-- A suit of the variant; the stats engine only passes it through to
`getNumCopiesOfCard`, so its name is all we keep. -/
structure Suit where
  name : String
deriving DecidableEq, Repr

/-- The fields of `Variant` that the statistics engine reads. -/
structure Variant where
  suits : List Suit
  throwItInAHole : Bool
deriving DecidableEq, Repr

/-- The fields of `TurnState` that the statistics engine reads. -/
structure TurnState where
  currentPlayerIndex : Option Nat
deriving DecidableEq, Repr

/-- The fields of `GameState` that the statistics engine reads. -/
structure GameState where
  deck : List CardState
  turn : TurnState
  hands : List (List Nat)
  playStacks : List (List Nat)
  playStackDirections : List StackDirection
  playStackStarts : List Nat
deriving DecidableEq, Repr

/-- Predicate `isCardInPlayerHand`: in the TS data model a card is in a player's hand
exactly when its `location` is a player index (`typeof location ===
"number"`, as the inline check in `getDoubleDiscardCard` shows). -/
def isCardInPlayerHand (c : CardState) : Bool :=
  match c.location with
  | CardLocation.hand _ => true
  | _ => false

/-- The helper predicates `stats.ts` imports from other rule modules,
abstracted as parameters: the statistics theorems hold for every
implementation of these. -/
structure GameRules where
  isCardClued : CardState → Bool
  isAllCardPossibilitiesTrash :
    CardState → List CardState → List (List Nat) → List StackDirection →
      List Nat → Variant → Bool → Bool
  isHandLocked : List Nat → List CardState → Bool
  isCardNeedsToBePlayed :
    Nat → Nat → List CardState → List (List Nat) → List StackDirection →
      List Nat → Variant → Bool
  getNumCopiesOfCard : Suit → Nat → Variant → Nat
  getNumDiscardedCopiesOfCard : List CardState → Nat → Nat → Nat

/-- The pace risk enumeration from `@hanabi/game`. -/
inductive PaceRisk where
  | Zero : PaceRisk
  | Low : PaceRisk
  | Medium : PaceRisk
  | High : PaceRisk
deriving DecidableEq, Repr

/-- Function `getPace` from `stats.ts`: `null` if the game is over or the deck is
empty, otherwise `score + deckSize - maxScore + endGameLength`. -/
def getPace (score deckSize maxScore endGameLength : Int)
    (gameOver : Bool) : Option Int :=
  if gameOver then none
  else if deckSize ≤ 0 then none
  else
    let adjustedScorePlusDeck := score + deckSize - maxScore
    some (adjustedScorePlusDeck + endGameLength)

/-- Function `getPaceRisk` from `stats.ts`: the null / zero / Florrat-high /
Hyphen-ated-medium checks, in source order. -/
def getPaceRisk (currentPace : Option Int) (numPlayers : Nat) : PaceRisk :=
  match currentPace with
  | none => PaceRisk.Low
  | some pace =>
    if pace ≤ 0 then PaceRisk.Zero
    else if pace - numPlayers + (numPlayers / 2 : Nat) < 0 then PaceRisk.High
    else if pace - numPlayers < 0 then PaceRisk.Medium
    else PaceRisk.Low

/-- Severity rank of a pace risk, for the monotonicity statement: the risk
order is Low < Medium < High < Zero. -/
def riskRank : PaceRisk → Nat
  | PaceRisk.Low => 0
  | PaceRisk.Medium => 1
  | PaceRisk.High => 2
  | PaceRisk.Zero => 3

/-- C1: `getPace` returns `null` iff the game is over or the deck is empty,
and otherwise returns exactly `score + deckSize - maxScore +
endGameLength`; at `(0, 40, 25, 2, false)` it returns 17. -/
theorem getPace_spec (score deckSize maxScore endGameLength : Int)
    (gameOver : Bool) :
    (getPace score deckSize maxScore endGameLength gameOver =
      if gameOver = true ∨ deckSize ≤ 0 then none
      else some (score + deckSize - maxScore + endGameLength)) ∧
    (getPace score deckSize maxScore endGameLength gameOver = none ↔
      (gameOver = true ∨ deckSize ≤ 0)) ∧
    getPace 0 40 25 2 false = some 17 := by
  refine ⟨?_, ?_, by decide⟩
  · unfold getPace
    split_ifs with h1 h2 h3 h3 <;> (try simp_all) <;> omega
  · unfold getPace
    split_ifs with h1 h2 <;> simp_all

/-- Witness for C1: the concrete scenario from the spec evaluates as the
theorem states. -/
theorem getPace_spec_witness : getPace 0 40 25 2 false = some 17 :=
  (getPace_spec 0 40 25 2 false).2.2

/-- C2: `getPaceRisk` checks its conditions in source order — null gives
Low, then `pace ≤ 0` gives Zero, then the Florrat condition gives High,
then the Hyphen-ated condition gives Medium, otherwise Low; the High check
is performed before the Medium check. -/
theorem getPaceRisk_order (numPlayers : Nat) (pace : Int) :
    (getPaceRisk none numPlayers = PaceRisk.Low) ∧
    (pace ≤ 0 → getPaceRisk (some pace) numPlayers = PaceRisk.Zero) ∧
    (0 < pace → pace - numPlayers + (numPlayers / 2 : Nat) < 0 →
      getPaceRisk (some pace) numPlayers = PaceRisk.High) ∧
    (0 < pace → ¬(pace - numPlayers + (numPlayers / 2 : Nat) < 0) →
      pace - numPlayers < 0 →
      getPaceRisk (some pace) numPlayers = PaceRisk.Medium) ∧
    (0 < pace → ¬(pace - numPlayers + (numPlayers / 2 : Nat) < 0) →
      ¬(pace - numPlayers < 0) →
      getPaceRisk (some pace) numPlayers = PaceRisk.Low) := by
  refine ⟨rfl, ?_, ?_, ?_, ?_⟩ <;> intro h1 <;>
    simp only [getPaceRisk] <;> split_ifs <;> simp_all <;> omega

/-- Witness for C2: with 4 players, pace 1 is High (the Florrat check
fires first) and pace 3 is Medium (the Florrat check fails, the
Hyphen-ated check fires). -/
theorem getPaceRisk_order_witness :
    getPaceRisk (some 1) 4 = PaceRisk.High ∧
    getPaceRisk (some 3) 4 = PaceRisk.Medium :=
  ⟨(getPaceRisk_order 4 1).2.2.1 (by decide) (by decide),
   (getPaceRisk_order 4 3).2.2.2.1 (by decide) (by decide) (by decide)⟩

/-- C9: for 1 or 2 players `getPaceRisk` never returns High — the result
is always Zero, Medium, or Low. -/
theorem getPaceRisk_no_high_small_games (pace : Option Int) :
    (getPaceRisk pace 1 = PaceRisk.Zero ∨ getPaceRisk pace 1 = PaceRisk.Medium ∨
      getPaceRisk pace 1 = PaceRisk.Low) ∧
    (getPaceRisk pace 2 = PaceRisk.Zero ∨ getPaceRisk pace 2 = PaceRisk.Medium ∨
      getPaceRisk pace 2 = PaceRisk.Low) := by
  rcases pace with _ | p
  · exact ⟨Or.inr (Or.inr rfl), Or.inr (Or.inr rfl)⟩
  · constructor <;> simp only [getPaceRisk] <;> split_ifs <;>
      simp_all <;> omega

/-- C7: for a fixed number of players, the risk returned by `getPaceRisk`
(ordered Low < Medium < High < Zero) never decreases as pace decreases,
and the four outcome regions partition the integers: each `pace` lies in
exactly one region, and each region is exactly the preimage of its
outcome. -/
theorem getPaceRisk_monotone_partition (n : Nat) (p q : Int) :
    (p ≤ q →
      riskRank (getPaceRisk (some q) n) ≤ riskRank (getPaceRisk (some p) n)) ∧
    ((getPaceRisk (some p) n = PaceRisk.Zero ↔ p ≤ 0) ∧
     (getPaceRisk (some p) n = PaceRisk.High ↔
       0 < p ∧ p - n + (n / 2 : Nat) < 0) ∧
     (getPaceRisk (some p) n = PaceRisk.Medium ↔
       0 < p ∧ ¬(p - n + (n / 2 : Nat) < 0) ∧ p - n < 0) ∧
     (getPaceRisk (some p) n = PaceRisk.Low ↔
       0 < p ∧ ¬(p - n + (n / 2 : Nat) < 0) ∧ ¬(p - n < 0))) ∧
    ((p ≤ 0 ∨ (0 < p ∧ p - n + (n / 2 : Nat) < 0) ∨
      (0 < p ∧ ¬(p - n + (n / 2 : Nat) < 0) ∧ p - n < 0) ∨
      (0 < p ∧ ¬(p - n + (n / 2 : Nat) < 0) ∧ ¬(p - n < 0))) ∧
     ¬(p ≤ 0 ∧ 0 < p) ∧
     ¬((0 < p ∧ p - n + (n / 2 : Nat) < 0) ∧
       (0 < p ∧ ¬(p - n + (n / 2 : Nat) < 0) ∧ p - n < 0)) ∧
     ¬((0 < p ∧ p - n + (n / 2 : Nat) < 0) ∧
       (0 < p ∧ ¬(p - n + (n / 2 : Nat) < 0) ∧ ¬(p - n < 0))) ∧
     ¬((0 < p ∧ ¬(p - n + (n / 2 : Nat) < 0) ∧ p - n < 0) ∧
       (0 < p ∧ ¬(p - n + (n / 2 : Nat) < 0) ∧ ¬(p - n < 0)))) := by
  refine ⟨?_, ⟨?_, ?_, ?_, ?_⟩, by omega, by omega, by omega, by omega, by omega⟩
  · intro hpq
    simp only [getPaceRisk]
    split_ifs <;> simp only [riskRank] <;> omega
  all_goals
    simp only [getPaceRisk]
    split_ifs <;> simp_all <;> omega

/-- Witness for C7: with 4 players, decreasing the pace from 5 to 0 does
not decrease the risk rank. -/
theorem getPaceRisk_monotone_partition_witness :
    riskRank (getPaceRisk (some 5) 4) ≤ riskRank (getPaceRisk (some 0) 4) :=
  (getPaceRisk_monotone_partition 4 0 5).1 (by decide)

/-- The first branch condition of the loop in `getCardsGotten`: the card is
on a play stack, or it is a misplayed discard in a "Throw It in a Hole"
variant while the viewer is playing or shadowing. -/
def gottenCondPlayed (variant : Variant) (playing shadowing : Bool)
    (c : CardState) : Bool :=
  decide (c.location = CardLocation.playStack) ||
    (decide (c.location = CardLocation.discard) && c.isMisplayed &&
      variant.throwItInAHole && (playing || shadowing))

/-- The second branch condition of the loop in `getCardsGotten`: the card
is in a player's hand, is clued, and its possibilities are not all trash. -/
def gottenCondClued (R : GameRules) (deck : List CardState)
    (playStacks : List (List Nat)) (playStackDirections : List StackDirection)
    (playStackStarts : List Nat) (variant : Variant) (c : CardState) : Bool :=
  isCardInPlayerHand c && R.isCardClued c &&
    !(R.isAllCardPossibilitiesTrash c deck playStacks playStackDirections
        playStackStarts variant false)

/-- Function `getCardsGotten` from `stats.ts`: fold over the deck counting played
(or counted-misplayed) cards and clued non-trash cards in hands, then
clamp the count at `maxScore`. -/
def getCardsGotten (R : GameRules) (deck : List CardState)
    (playStacks : List (List Nat)) (playStackDirections : List StackDirection)
    (playStackStarts : List Nat) (playing shadowing : Bool) (maxScore : Int)
    (variant : Variant) : Int :=
  let currentCardsGotten : Int :=
    deck.foldl
      (fun acc c =>
        if gottenCondPlayed variant playing shadowing c then acc + 1
        else if gottenCondClued R deck playStacks playStackDirections
            playStackStarts variant c then acc + 1
        else acc)
      0
  if currentCardsGotten > maxScore then maxScore else currentCardsGotten

/-- Claim-side count: cards located on the play stacks. -/
def countCardsOnPlayStacks (deck : List CardState) : Nat :=
  deck.countP (fun c => decide (c.location = CardLocation.playStack))

/-- Claim-side count: misplayed cards in the discard pile. -/
def countMisplayedDiscards (deck : List CardState) : Nat :=
  deck.countP
    (fun c => decide (c.location = CardLocation.discard) && c.isMisplayed)

/-- Claim-side count: cards in a player's hand that are clued and whose
possibility set is not entirely trash. -/
def countCluedNonTrashInHand (R : GameRules) (deck : List CardState)
    (playStacks : List (List Nat)) (playStackDirections : List StackDirection)
    (playStackStarts : List Nat) (variant : Variant) : Nat :=
  deck.countP
    (gottenCondClued R deck playStacks playStackDirections playStackStarts
      variant)

/-- The else-if fold of `getCardsGotten` counts each of the two disjoint
conditions once. -/
theorem foldl_elseif_count {α : Type} (p q : α → Bool)
    (hdisj : ∀ a, ¬(p a = true ∧ q a = true)) :
    ∀ (l : List α) (acc : Int),
      l.foldl (fun acc c => if p c then acc + 1 else if q c then acc + 1 else acc)
          acc =
        acc + l.countP p + l.countP q := by
  intro l
  induction l with
  | nil => intro acc; simp
  | cons a l ih =>
    intro acc
    have hd := hdisj a
    cases hp : p a <;> cases hq : q a <;>
      simp_all [List.countP_cons, List.foldl_cons] <;> omega

/-- Counting a disjunction of two pointwise-disjoint predicates counts
each once. -/
theorem countP_or_disjoint {α : Type} (p q : α → Bool)
    (hdisj : ∀ a, ¬(p a = true ∧ q a = true)) :
    ∀ l : List α, l.countP (fun a => p a || q a) = l.countP p + l.countP q := by
  intro l
  induction l with
  | nil => simp
  | cons a l ih =>
    have hd := hdisj a
    cases hp : p a <;> cases hq : q a <;>
      simp_all [List.countP_cons] <;> omega

/-- Counting with pointwise-equal predicates gives equal counts. -/
theorem countP_ext {α : Type} (p q : α → Bool) (h : ∀ a, p a = q a)
    (l : List α) : l.countP p = l.countP q := by
  have : p = q := funext h
  rw [this]

/-- The two branch conditions of the `getCardsGotten` loop are disjoint:
the first needs the card on the play stacks or in the discard pile, the
second needs it in a player's hand. -/
theorem gottenCond_disjoint (R : GameRules) (deck : List CardState)
    (playStacks : List (List Nat)) (playStackDirections : List StackDirection)
    (playStackStarts : List Nat) (variant : Variant)
    (playing shadowing : Bool) :
    ∀ a, ¬(gottenCondPlayed variant playing shadowing a = true ∧
      gottenCondClued R deck playStacks playStackDirections playStackStarts
        variant a = true) := by
  rintro a ⟨h1, h2⟩
  simp only [gottenCondPlayed, gottenCondClued, isCardInPlayerHand,
    Bool.and_eq_true, Bool.or_eq_true, decide_eq_true_eq] at h1 h2
  cases h : a.location <;> simp_all

/-- When the "Throw It in a Hole" counting is off, the first branch
condition is just "on the play stacks". -/
theorem gottenCondPlayed_of_flag_false (variant : Variant)
    (playing shadowing : Bool)
    (hF : (variant.throwItInAHole && (playing || shadowing)) = false) :
    ∀ a, gottenCondPlayed variant playing shadowing a =
      decide (a.location = CardLocation.playStack) := by
  intro a
  cases hv : variant.throwItInAHole <;> cases hp : playing <;>
    cases hs : shadowing <;> simp_all [gottenCondPlayed]

/-- When the "Throw It in a Hole" counting is on, the first branch
condition is "on the play stacks, or a misplayed discard". -/
theorem gottenCondPlayed_of_flag_true (variant : Variant)
    (playing shadowing : Bool)
    (hF : (variant.throwItInAHole && (playing || shadowing)) = true) :
    ∀ a, gottenCondPlayed variant playing shadowing a =
      (decide (a.location = CardLocation.playStack) ||
        (decide (a.location = CardLocation.discard) && a.isMisplayed)) := by
  intro a
  cases hv : variant.throwItInAHole <;> cases hp : playing <;>
    cases hs : shadowing <;> simp_all [gottenCondPlayed]

/-- A card cannot be on the play stacks and in the discard pile at once,
so the two halves of the "Throw It in a Hole" condition count separately. -/
theorem countP_play_or_misplay (deck : List CardState) :
    deck.countP
        (fun a => decide (a.location = CardLocation.playStack) ||
          (decide (a.location = CardLocation.discard) && a.isMisplayed)) =
      countCardsOnPlayStacks deck + countMisplayedDiscards deck := by
  unfold countCardsOnPlayStacks countMisplayedDiscards
  refine countP_or_disjoint _ _ ?_ deck
  rintro a ⟨h1, h2⟩
  simp only [Bool.and_eq_true, decide_eq_true_eq] at h1 h2
  rw [h1] at h2
  simp at h2

/-- Sample variant for the C6 scenario: one suit, no special rules. -/
def sampleVariant : Variant := ⟨[⟨"Red"⟩], false⟩

/-- Sample rule implementations for the C6 scenario: every card counts as
clued and nothing is trash. -/
def sampleRules : GameRules :=
  ⟨fun _ => true, fun _ _ _ _ _ _ _ => false, fun _ _ => false,
   fun _ _ _ _ _ _ _ => true, fun _ _ _ => 1, fun _ _ _ => 0⟩

/-- Sample deck for the C6 scenario: three cards on the play stacks and
two clued cards in hands. -/
def sampleDeck : List CardState :=
  [⟨0, some 0, some 1, CardLocation.playStack, false, []⟩,
   ⟨1, some 0, some 2, CardLocation.playStack, false, []⟩,
   ⟨2, some 0, some 3, CardLocation.playStack, false, []⟩,
   ⟨3, none, none, CardLocation.hand 0, false, []⟩,
   ⟨4, none, none, CardLocation.hand 1, false, []⟩]

/-- C6: `getCardsGotten` returns the number of cards on the play stacks,
plus (only in "Throw It in a Hole" variants while playing or shadowing)
the misplayed discards, plus the clued non-trash cards in hands, clamped
at `maxScore`; on the sample scenario (3 played, 2 clued in hand,
maxScore 25) it returns 5. -/
theorem getCardsGotten_spec (R : GameRules) (deck : List CardState)
    (playStacks : List (List Nat)) (playStackDirections : List StackDirection)
    (playStackStarts : List Nat) (playing shadowing : Bool) (maxScore : Int)
    (variant : Variant) :
    (getCardsGotten R deck playStacks playStackDirections playStackStarts
        playing shadowing maxScore variant =
      min
        ((countCardsOnPlayStacks deck : Int) +
          (if variant.throwItInAHole && (playing || shadowing) then
            (countMisplayedDiscards deck : Int) else 0) +
          (countCluedNonTrashInHand R deck playStacks playStackDirections
            playStackStarts variant : Int))
        maxScore) ∧
    getCardsGotten sampleRules sampleDeck [] [] [] true false 25
      sampleVariant = 5 := by
  refine ⟨?_, by decide⟩
  have h1 := foldl_elseif_count (gottenCondPlayed variant playing shadowing)
    (gottenCondClued R deck playStacks playStackDirections playStackStarts
      variant)
    (gottenCond_disjoint R deck playStacks playStackDirections playStackStarts
      variant playing shadowing) deck 0
  unfold getCardsGotten
  rw [h1]
  have hclued : deck.countP
      (gottenCondClued R deck playStacks playStackDirections playStackStarts
        variant) =
      countCluedNonTrashInHand R deck playStacks playStackDirections
        playStackStarts variant := rfl
  cases hF : variant.throwItInAHole && (playing || shadowing)
  · have hsplit : deck.countP (gottenCondPlayed variant playing shadowing) =
        countCardsOnPlayStacks deck := by
      rw [countP_ext _ _ (gottenCondPlayed_of_flag_false variant playing
        shadowing hF) deck]
      rfl
    rw [hsplit, hclued]
    simp only [hF, Bool.false_eq_true, if_false, min_def]
    split_ifs <;> omega
  · have hsplit : deck.countP (gottenCondPlayed variant playing shadowing) =
        countCardsOnPlayStacks deck + countMisplayedDiscards deck := by
      rw [countP_ext _ _ (gottenCondPlayed_of_flag_true variant playing
        shadowing hF) deck]
      exact countP_play_or_misplay deck
    rw [hsplit, hclued]
    simp only [hF, if_true, min_def]
    split_ifs <;> push_cast <;> omega

/-- Function `getCardsGottenByNotesAdjustment` from `stats.ts`: the signed delta a
player's note contributes for one card. -/
def getCardsGottenByNotesAdjustment (R : GameRules) (notes : List CardNote)
    (order : Nat) (cardState : CardState) : Int :=
  match notes.get? order with
  | none => 0
  | some note =>
    let isCluedForReal := R.isCardClued cardState
    if isCluedForReal && (note.unclued || note.knownTrash) then -1
    else if isCluedForReal then 0
    else
      let isCluedByNotes :=
        (note.clued || note.finessed) && !note.unclued && !note.knownTrash
      if isCluedByNotes then 1 else 0

/-- The indexed loop of `getCardsGottenByNotes`: walk the deck with the
card order as index, summing the per-card note adjustments of in-hand
cards that are not all-trash. -/
def getCardsGottenByNotesGo (R : GameRules) (deck0 : List CardState)
    (playStacks : List (List Nat)) (playStackDirections : List StackDirection)
    (playStackStarts : List Nat) (variant : Variant) (notes : List CardNote) :
    Nat → List CardState → Int
  | _, [] => 0
  | i, c :: rest =>
    (if isCardInPlayerHand c &&
        !(R.isAllCardPossibilitiesTrash c deck0 playStacks
            playStackDirections playStackStarts variant false) then
      getCardsGottenByNotesAdjustment R notes i c
    else 0) +
      getCardsGottenByNotesGo R deck0 playStacks playStackDirections
        playStackStarts variant notes (i + 1) rest

/-- Function `getCardsGottenByNotes` from `stats.ts`. -/
def getCardsGottenByNotes (R : GameRules) (deck : List CardState)
    (playStacks : List (List Nat)) (playStackDirections : List StackDirection)
    (playStackStarts : List Nat) (variant : Variant)
    (notes : List CardNote) : Int :=
  getCardsGottenByNotesGo R deck playStacks playStackDirections
    playStackStarts variant notes 0 deck

/-- Per-card delta as claim C8 words it: -1 when the card is actually
clued and its note marks it unclued or known-trash; +1 when the card is
not actually clued and its note marks it clued or finessed; otherwise 0. -/
def c8ClaimedAdjustment (R : GameRules) (notes : List CardNote)
    (order : Nat) (cardState : CardState) : Int :=
  match notes.get? order with
  | none => 0
  | some note =>
    if R.isCardClued cardState && (note.unclued || note.knownTrash) then -1
    else if !(R.isCardClued cardState) && (note.clued || note.finessed) then 1
    else 0

/-- Per-card delta as amended for C8: the +1 case additionally requires
that the note does not also mark the card unclued or known-trash. -/
def c8AmendedAdjustment (R : GameRules) (notes : List CardNote)
    (order : Nat) (cardState : CardState) : Int :=
  match notes.get? order with
  | none => 0
  | some note =>
    if R.isCardClued cardState && (note.unclued || note.knownTrash) then -1
    else if !(R.isCardClued cardState) &&
        ((note.clued || note.finessed) && !note.unclued && !note.knownTrash)
      then 1
    else 0

/-- Claim-side sum: walk the deck with the card order as index, summing a
given per-card delta over the in-hand, not-all-trash cards. -/
def notesDeltaSumGo (R : GameRules) (deck0 : List CardState)
    (playStacks : List (List Nat)) (playStackDirections : List StackDirection)
    (playStackStarts : List Nat) (variant : Variant)
    (delta : Nat → CardState → Int) : Nat → List CardState → Int
  | _, [] => 0
  | i, c :: rest =>
    (if isCardInPlayerHand c &&
        !(R.isAllCardPossibilitiesTrash c deck0 playStacks
            playStackDirections playStackStarts variant false) then
      delta i c
    else 0) +
      notesDeltaSumGo R deck0 playStacks playStackDirections playStackStarts
        variant delta (i + 1) rest

/-- The sum of the C8 claim's per-card deltas over the deck. -/
def c8ClaimedSum (R : GameRules) (deck : List CardState)
    (playStacks : List (List Nat)) (playStackDirections : List StackDirection)
    (playStackStarts : List Nat) (variant : Variant)
    (notes : List CardNote) : Int :=
  notesDeltaSumGo R deck playStacks playStackDirections playStackStarts
    variant (c8ClaimedAdjustment R notes) 0 deck

/-- The sum of the amended per-card deltas over the deck. -/
def c8AmendedSum (R : GameRules) (deck : List CardState)
    (playStacks : List (List Nat)) (playStackDirections : List StackDirection)
    (playStackStarts : List Nat) (variant : Variant)
    (notes : List CardNote) : Int :=
  notesDeltaSumGo R deck playStacks playStackDirections playStackStarts
    variant (c8AmendedAdjustment R notes) 0 deck

/-- The source per-card adjustment coincides with the amended delta. -/
theorem adjustment_eq_amended (R : GameRules) (notes : List CardNote)
    (order : Nat) (c : CardState) :
    getCardsGottenByNotesAdjustment R notes order c =
      c8AmendedAdjustment R notes order c := by
  unfold getCardsGottenByNotesAdjustment c8AmendedAdjustment
  cases hn : notes.get? order with
  | none => rfl
  | some note =>
    cases hc : R.isCardClued c <;>
      cases note.unclued <;> cases note.knownTrash <;>
      cases note.clued <;> cases note.finessed <;> simp

/-- Rules for the C8 counterexample: no card is actually clued and no card
is all-trash. -/
def c8Rules : GameRules :=
  ⟨fun _ => false, fun _ _ _ _ _ _ _ => false, fun _ _ => false,
   fun _ _ _ _ _ _ _ => true, fun _ _ _ => 1, fun _ _ _ => 0⟩

/-- Deck for the C8 counterexample: a single card in player 0's hand. -/
def c8Deck : List CardState := [⟨0, none, none, CardLocation.hand 0, false, []⟩]

/-- Notes for the C8 counterexample: one note marking the card both clued
and known-trash. -/
def c8Notes : List CardNote := [⟨true, false, true, false⟩]

/-- Counterexample to C8 as stated: on an unclued in-hand card whose note
marks it both clued and known-trash, the source adjustment is 0 (the code
also requires the note not to mark the card unclued or known-trash), but
the claim's delta is +1, so the claimed sum is 1 while the function
returns 0. -/
theorem getCardsGottenByNotes_claim_counterexample :
    getCardsGottenByNotes c8Rules c8Deck [] [] [] sampleVariant c8Notes = 0 ∧
    c8ClaimedSum c8Rules c8Deck [] [] [] sampleVariant c8Notes = 1 := by
  constructor <;> rfl

/-- The source loop and the amended-delta loop agree on every folded
suffix of the deck. -/
theorem notesGo_eq_amendedGo (R : GameRules) (deck0 : List CardState)
    (playStacks : List (List Nat)) (playStackDirections : List StackDirection)
    (playStackStarts : List Nat) (variant : Variant) (notes : List CardNote) :
    ∀ (l : List CardState) (i : Nat),
      getCardsGottenByNotesGo R deck0 playStacks playStackDirections
          playStackStarts variant notes i l =
        notesDeltaSumGo R deck0 playStacks playStackDirections
          playStackStarts variant (c8AmendedAdjustment R notes) i l := by
  intro l
  induction l with
  | nil => intro i; rfl
  | cons c rest ih =>
    intro i
    simp only [getCardsGottenByNotesGo, notesDeltaSumGo,
      adjustment_eq_amended, ih]

/-- C8 (amended): `getCardsGottenByNotes` sums, over exactly the in-hand
not-all-trash cards, the delta that is -1 when the card is clued and its
note marks it unclued or known-trash, +1 when the card is not clued and
its note marks it clued or finessed without also marking it unclued or
known-trash, and 0 otherwise. -/
theorem getCardsGottenByNotes_spec (R : GameRules) (deck : List CardState)
    (playStacks : List (List Nat)) (playStackDirections : List StackDirection)
    (playStackStarts : List Nat) (variant : Variant)
    (notes : List CardNote) :
    getCardsGottenByNotes R deck playStacks playStackDirections
        playStackStarts variant notes =
      c8AmendedSum R deck playStacks playStackDirections playStackStarts
        variant notes := by
  unfold getCardsGottenByNotes c8AmendedSum
  exact notesGo_eq_amendedGo R deck playStacks playStackDirections
    playStackStarts variant notes deck 0

/-- Function `getMaxDiscardsBeforeFinalRound` from `stats.ts`. -/
def getMaxDiscardsBeforeFinalRound (cardsToPlay deckSize endGameLength : Rat) :
    Rat :=
  if cardsToPlay ≤ endGameLength + 1 then deckSize - 1
  else if cardsToPlay ≤ endGameLength + deckSize then
    endGameLength + deckSize - cardsToPlay
  else 0

/-- Function `getMaxPlaysDuringFinalRound` from `stats.ts`. -/
def getMaxPlaysDuringFinalRound (cardsToPlay endGameLength : Rat) : Rat :=
  if cardsToPlay < endGameLength + 1 then cardsToPlay
  else endGameLength + 1

/-- Function `getMaxPlays` from `stats.ts`. -/
def getMaxPlays (cardsToPlay deckSize endGameLength : Rat) : Rat :=
  if cardsToPlay ≤ endGameLength + deckSize then cardsToPlay
  else endGameLength + deckSize

/-- Ascending insertion into a sorted list (the JS `sort((a, b) => a - b)`
on the missing-cards list). -/
def insertAsc (x : Rat) : List Rat → List Rat
  | [] => [x]
  | y :: ys => if x ≤ y then x :: y :: ys else y :: insertAsc x ys

/-- Ascending sort of the missing-cards list. -/
def sortAsc : List Rat → List Rat
  | [] => []
  | x :: xs => insertAsc x (sortAsc xs)

/-- The greedy loop of `getCluesStillUsableNotRounded`: walk the sorted
missing-cards list, completing suits while the play budget allows, and
stop at the first suit that does not fit. -/
def greedySuitsCompleted (minPlaysBeforeFinalRound : Rat) :
    Rat → List Rat → Nat
  | _, [] => 0
  | cardsPlayed, missingCardsInSuit :: rest =>
    if minPlaysBeforeFinalRound < cardsPlayed + missingCardsInSuit then 0
    else 1 + greedySuitsCompleted minPlaysBeforeFinalRound
      (cardsPlayed + missingCardsInSuit) rest

/-- The completable-suit candidates of `getCluesStillUsableNotRounded`:
stacks whose maximum equals the stack size and whose score is below it,
each contributing its number of missing cards. -/
def missingCardsPerCompletableSuit (scorePerStack maxScorePerStack : List Rat)
    (stackSize : Rat) : List Rat :=
  (scorePerStack.zip maxScorePerStack).filterMap
    (fun sm =>
      if sm.2 = stackSize ∧ sm.1 < stackSize then some (sm.2 - sm.1)
      else none)

/-- Function `getCluesStillUsableNotRounded` from `stats.ts`: errors on a length
mismatch or on `discardValue < suitValue`, returns `null` on an empty
deck, and otherwise adds the discard clues, the completable-suit clues
and the current clues. -/
def getCluesStillUsableNotRounded (score : Rat)
    (scorePerStack maxScorePerStack : List Rat)
    (stackSize deckSize endGameLength discardValue suitValue currentClues :
      Rat) : Except String (Option Rat) :=
  if scorePerStack.length ≠ maxScorePerStack.length then
    Except.error
      "Failed to calculate efficiency: scorePerStack must have the same length as maxScorePerStack."
  else if discardValue < suitValue then
    Except.error
      "Cannot calculate efficiency in variants where discarding gives fewer clues than completing suits."
  else if deckSize ≤ 0 then Except.ok none
  else
    let maxScore := maxScorePerStack.sum
    let missingScore := maxScore - score
    let maxDiscardsBeforeFinalRound :=
      getMaxDiscardsBeforeFinalRound missingScore deckSize endGameLength
    let cluesFromDiscards := maxDiscardsBeforeFinalRound * discardValue
    let cluesFromSuits :=
      if 0 < suitValue then
        let playsDuringFinalRound :=
          getMaxPlaysDuringFinalRound missingScore endGameLength
        let minPlaysBeforeFinalRound :=
          getMaxPlays missingScore deckSize endGameLength -
            playsDuringFinalRound
        let sorted :=
          sortAsc
            (missingCardsPerCompletableSuit scorePerStack maxScorePerStack
              stackSize)
        (greedySuitsCompleted minPlaysBeforeFinalRound 0 sorted : Rat) *
          suitValue
      else 0
    Except.ok (some (cluesFromDiscards + cluesFromSuits + currentClues))

/-- C3: `getCluesStillUsableNotRounded` errors exactly when the stack
score lists have different lengths or `discardValue < suitValue`, and when
neither error condition holds it returns `null` exactly when
`deckSize ≤ 0`. -/
theorem getCluesStillUsableNotRounded_errors (score : Rat)
    (scorePerStack maxScorePerStack : List Rat)
    (stackSize deckSize endGameLength discardValue suitValue currentClues :
      Rat) :
    ((∃ msg, getCluesStillUsableNotRounded score scorePerStack
        maxScorePerStack stackSize deckSize endGameLength discardValue
        suitValue currentClues = Except.error msg) ↔
      (scorePerStack.length ≠ maxScorePerStack.length ∨
        discardValue < suitValue)) ∧
    (scorePerStack.length = maxScorePerStack.length →
      suitValue ≤ discardValue →
      (getCluesStillUsableNotRounded score scorePerStack maxScorePerStack
          stackSize deckSize endGameLength discardValue suitValue
          currentClues = Except.ok none ↔
        deckSize ≤ 0)) := by
  constructor
  · unfold getCluesStillUsableNotRounded
    split_ifs with h1 h2 h3 <;> simp_all
  · intro hlen hval
    unfold getCluesStillUsableNotRounded
    split_ifs with h1 h2 h3 <;> simp_all
    exact absurd hval (not_le.mpr h2)

/-- Witness for C3: a length mismatch errors, and with matching lengths
and an empty deck the result is `null`. -/
theorem getCluesStillUsableNotRounded_errors_witness :
    (∃ msg, getCluesStillUsableNotRounded 0 [0] [] 5 40 2 1 1 8 =
      Except.error msg) ∧
    getCluesStillUsableNotRounded 0 [0] [5] 5 0 2 1 1 8 = Except.ok none :=
  ⟨(getCluesStillUsableNotRounded_errors 0 [0] [] 5 40 2 1 1 8).1.mpr
      (Or.inl (by decide)),
   ((getCluesStillUsableNotRounded_errors 0 [0] [5] 5 0 2 1 1 8).2 rfl
      (by norm_num)).mpr (by norm_num)⟩

/-- The value claim C5 states for a non-null result: maximum discards
before the final round times `discardValue`, plus `suitValue` times the
number of completable suits (sorted ascending by missing cards, greedily
packed into the before-final-round play budget), plus `currentClues`. -/
def c5ClaimedValue (score : Rat) (scorePerStack maxScorePerStack : List Rat)
    (stackSize deckSize endGameLength discardValue suitValue currentClues :
      Rat) : Rat :=
  let missingScore := maxScorePerStack.sum - score
  getMaxDiscardsBeforeFinalRound missingScore deckSize endGameLength *
      discardValue +
    suitValue *
      (greedySuitsCompleted
        (getMaxPlays missingScore deckSize endGameLength -
          getMaxPlaysDuringFinalRound missingScore endGameLength) 0
        (sortAsc
          (missingCardsPerCompletableSuit scorePerStack maxScorePerStack
            stackSize)) : Rat) +
    currentClues

/-- The amended C5 value: the suits term only contributes when
`suitValue` is positive (the code skips the suit computation otherwise). -/
def c5AmendedValue (score : Rat) (scorePerStack maxScorePerStack : List Rat)
    (stackSize deckSize endGameLength discardValue suitValue currentClues :
      Rat) : Rat :=
  let missingScore := maxScorePerStack.sum - score
  getMaxDiscardsBeforeFinalRound missingScore deckSize endGameLength *
      discardValue +
    (if 0 < suitValue then
      suitValue *
        (greedySuitsCompleted
          (getMaxPlays missingScore deckSize endGameLength -
            getMaxPlaysDuringFinalRound missingScore endGameLength) 0
          (sortAsc
            (missingCardsPerCompletableSuit scorePerStack maxScorePerStack
              stackSize)) : Rat)
    else 0) +
    currentClues

/-- Counterexample to C5 as stated: with a negative `suitValue` (-1, which
passes the `discardValue < suitValue` check since `discardValue` is 0) and
one completable suit that fits the play budget, the code returns 0 while
the claimed formula gives -1 — the code only adds the suits term when
`suitValue > 0`. -/
theorem getCluesStillUsableNotRounded_claim_counterexample :
    getCluesStillUsableNotRounded 4 [4, 0] [5, 5] 5 40 2 0 (-1) 0 =
      Except.ok (some 0) ∧
    c5ClaimedValue 4 [4, 0] [5, 5] 5 40 2 0 (-1) 0 = -1 := by
  constructor <;> norm_num [getCluesStillUsableNotRounded, c5ClaimedValue,
    getMaxDiscardsBeforeFinalRound, getMaxPlays, getMaxPlaysDuringFinalRound,
    missingCardsPerCompletableSuit, sortAsc, insertAsc, greedySuitsCompleted]

/-- C5 (amended): whenever `getCluesStillUsableNotRounded` returns a
non-null value, that value is the maximum discards before the final round
times `discardValue`, plus — when `suitValue` is positive — `suitValue`
times the number of completable suits sorted ascending by missing cards
and greedily packed into the before-final-round play budget, plus
`currentClues`. -/
theorem getCluesStillUsableNotRounded_value (score : Rat)
    (scorePerStack maxScorePerStack : List Rat)
    (stackSize deckSize endGameLength discardValue suitValue currentClues
      v : Rat)
    (h : getCluesStillUsableNotRounded score scorePerStack maxScorePerStack
      stackSize deckSize endGameLength discardValue suitValue currentClues =
      Except.ok (some v)) :
    v = c5AmendedValue score scorePerStack maxScorePerStack stackSize
      deckSize endGameLength discardValue suitValue currentClues := by
  unfold getCluesStillUsableNotRounded at h
  split_ifs at h with h1 h2 h3 h4 <;>
    simp only [reduceCtorEq, Except.ok.injEq, Option.some.injEq] at h
  · subst h
    unfold c5AmendedValue
    simp only [if_pos h4]
    ring
  · subst h
    unfold c5AmendedValue
    simp only [if_neg h4]

/-- Witness for C5: a concrete position where the function returns a
non-null value, matching the amended formula. -/
theorem getCluesStillUsableNotRounded_value_witness :
    getCluesStillUsableNotRounded 0 [0] [5] 5 40 2 1 1 8 =
      Except.ok (some 45) ∧
    c5AmendedValue 0 [0] [5] 5 40 2 1 1 8 = 45 := by
  have hv : getCluesStillUsableNotRounded 0 [0] [5] 5 40 2 1 1 8 =
      Except.ok (some 45) := by
    norm_num [getCluesStillUsableNotRounded, getMaxDiscardsBeforeFinalRound,
      getMaxPlays, getMaxPlaysDuringFinalRound,
      missingCardsPerCompletableSuit, sortAsc, insertAsc,
      greedySuitsCompleted]
  exact ⟨hv,
    (getCluesStillUsableNotRounded_value 0 [0] [5] 5 40 2 1 1 8 45 hv).symm⟩

/-- The duplicate-copy check inside `getDoubleDiscardCard`: another card
with the same identity sits in a player's hand fully filled-in by clues. -/
def isKnownDuplicateInHand (cardDiscarded : CardState) (c : CardState) :
    Bool :=
  decide (c.order ≠ cardDiscarded.order) &&
    decide (c.suitIndex = cardDiscarded.suitIndex) &&
    decide (c.rank = cardDiscarded.rank) &&
    isCardInPlayerHand c &&
    decide (c.possibleCardsFromClues.length = 1)

/-- The next-player locked check of `getDoubleDiscardCard`: look up the
hand of the player after `currentPlayerIndex` and ask `isHandLocked`; a
missing hand (as with an empty hands list) counts as not locked, as in the
source where the check is skipped when the hand is `undefined`. -/
def nextPlayerHandLocked (R : GameRules) (gameState : GameState)
    (currentPlayerIndex : Nat) : Bool :=
  match gameState.hands.get?
      ((currentPlayerIndex + 1) % gameState.hands.length) with
  | some hand => R.isHandLocked hand gameState.deck
  | none => false

/-- Function `getDoubleDiscardCard` from `stats.ts`: the chain of early-`null`
checks, in source order, ending in the remaining-copy count test. -/
def getDoubleDiscardCard (R : GameRules) (orderOfDiscardedCard : Nat)
    (gameState : GameState) (variant : Variant) : Option Nat :=
  match gameState.deck.get? orderOfDiscardedCard with
  | none => none
  | some cardDiscarded =>
    match gameState.turn.currentPlayerIndex with
    | none => none
    | some currentPlayerIndex =>
      if nextPlayerHandLocked R gameState currentPlayerIndex then none
      else
        match cardDiscarded.suitIndex, cardDiscarded.rank with
        | some suitIndex, some rank =>
          if !(R.isCardNeedsToBePlayed suitIndex rank gameState.deck
              gameState.playStacks gameState.playStackDirections
              gameState.playStackStarts variant) then none
          else if gameState.deck.any (isKnownDuplicateInHand cardDiscarded)
            then none
          else
            match variant.suits.get? suitIndex with
            | none => none
            | some suit =>
              if R.getNumCopiesOfCard suit rank variant =
                  R.getNumDiscardedCopiesOfCard gameState.deck suitIndex
                    rank + 1
                then some orderOfDiscardedCard
              else none
        | _, _ => none

/-- The double-discard conditions as claim C4 words them: the game is not
over, the next player's hand is not fully locked, the discarded card's
suit and rank are known, the card still needs to be played, no other copy
of the same identity sits fully determined in a player's hand, and exactly
one copy remains undiscarded. -/
def doubleDiscardConditions (R : GameRules) (orderOfDiscardedCard : Nat)
    (gameState : GameState) (variant : Variant) : Bool :=
  match gameState.turn.currentPlayerIndex with
  | none => false
  | some currentPlayerIndex =>
    match gameState.deck.get? orderOfDiscardedCard with
    | none => false
    | some cardDiscarded =>
      match cardDiscarded.suitIndex, cardDiscarded.rank with
      | some suitIndex, some rank =>
        !(nextPlayerHandLocked R gameState currentPlayerIndex) &&
        R.isCardNeedsToBePlayed suitIndex rank gameState.deck
          gameState.playStacks gameState.playStackDirections
          gameState.playStackStarts variant &&
        !(gameState.deck.any (isKnownDuplicateInHand cardDiscarded)) &&
        (match variant.suits.get? suitIndex with
          | some suit =>
            decide (R.getNumCopiesOfCard suit rank variant =
              R.getNumDiscardedCopiesOfCard gameState.deck suitIndex rank + 1)
          | none => false)
      | _, _ => false

/-- The tail of the double-discard check (after the game-over and locked
checks), compared with the corresponding tail of the claim conditions. -/
theorem doubleDiscard_tail_eq (R : GameRules) (o : Nat) (gs : GameState)
    (v : Variant) (cd : CardState) (nl : Bool) (hnl : nl = true) :
    (match cd.suitIndex, cd.rank with
      | some suitIndex, some rank =>
        if !(R.isCardNeedsToBePlayed suitIndex rank gs.deck gs.playStacks
            gs.playStackDirections gs.playStackStarts v) then none
        else if gs.deck.any (isKnownDuplicateInHand cd) then none
        else
          match v.suits.get? suitIndex with
          | none => none
          | some suit =>
            if R.getNumCopiesOfCard suit rank v =
                R.getNumDiscardedCopiesOfCard gs.deck suitIndex rank + 1
              then some o
            else none
      | _, _ => (none : Option Nat)) =
    if (match cd.suitIndex, cd.rank with
      | some suitIndex, some rank =>
        nl &&
        R.isCardNeedsToBePlayed suitIndex rank gs.deck gs.playStacks
          gs.playStackDirections gs.playStackStarts v &&
        !(gs.deck.any (isKnownDuplicateInHand cd)) &&
        (match v.suits.get? suitIndex with
          | some suit =>
            decide (R.getNumCopiesOfCard suit rank v =
              R.getNumDiscardedCopiesOfCard gs.deck suitIndex rank + 1)
          | none => false)
      | _, _ => false) = true
      then some o
    else none := by
  subst hnl
  cases hsi : cd.suitIndex with
  | none => cases cd.rank <;> simp
  | some suitIndex =>
    cases hr : cd.rank with
    | none => simp
    | some rank =>
      simp only [Bool.true_and]
      cases hneed : R.isCardNeedsToBePlayed suitIndex rank gs.deck
          gs.playStacks gs.playStackDirections gs.playStackStarts v with
      | false => simp
      | true =>
        simp only [Bool.not_true, Bool.false_eq_true, if_false,
          Bool.true_and]
        cases hany : gs.deck.any (isKnownDuplicateInHand cd) with
        | true => simp
        | false =>
          simp only [Bool.not_false, Bool.true_and]
          cases hsuit : v.suits.get? suitIndex with
          | none => simp
          | some suit =>
            by_cases hcount : R.getNumCopiesOfCard suit rank v =
                R.getNumDiscardedCopiesOfCard gs.deck suitIndex rank + 1 <;>
              simp [hcount]

/-- Helper: `getDoubleDiscardCard` returns the discarded order when the claim C4
conditions hold and `null` otherwise. -/
theorem getDoubleDiscardCard_eq_conditions (R : GameRules)
    (orderOfDiscardedCard : Nat) (gameState : GameState) (variant : Variant) :
    getDoubleDiscardCard R orderOfDiscardedCard gameState variant =
      if doubleDiscardConditions R orderOfDiscardedCard gameState variant
        then some orderOfDiscardedCard
      else none := by
  unfold getDoubleDiscardCard doubleDiscardConditions
  cases hc : gameState.deck.get? orderOfDiscardedCard with
  | none =>
    cases gameState.turn.currentPlayerIndex <;> simp
  | some cardDiscarded =>
    cases hcpi : gameState.turn.currentPlayerIndex with
    | none => simp
    | some currentPlayerIndex =>
      simp only
      by_cases hlock :
          nextPlayerHandLocked R gameState currentPlayerIndex = true
      · simp only [hlock, if_pos rfl]
        cases cardDiscarded.suitIndex <;> cases cardDiscarded.rank <;> simp
      · rw [Bool.not_eq_true] at hlock
        simp only [hlock, Bool.false_eq_true, if_false]
        exact doubleDiscard_tail_eq R orderOfDiscardedCard gameState
          variant cardDiscarded (!false) rfl

/-- C4: `getDoubleDiscardCard` returns the discarded card's order exactly
when the claim's conditions all hold (game not over, next hand not locked,
identity known, card still needed, no known duplicate in a hand, exactly
one copy left undiscarded) and `null` otherwise; in particular it returns
`null` whenever the next player's hand is locked (fully clued), regardless
of the other conditions. -/
theorem getDoubleDiscardCard_spec (R : GameRules)
    (orderOfDiscardedCard : Nat) (gameState : GameState) (variant : Variant) :
    (getDoubleDiscardCard R orderOfDiscardedCard gameState variant =
      if doubleDiscardConditions R orderOfDiscardedCard gameState variant
        then some orderOfDiscardedCard
      else none) ∧
    (∀ (i : Nat) (hand : List Nat),
      gameState.turn.currentPlayerIndex = some i →
      gameState.hands.get? ((i + 1) % gameState.hands.length) = some hand →
      R.isHandLocked hand gameState.deck = true →
      getDoubleDiscardCard R orderOfDiscardedCard gameState variant = none) := by
  refine ⟨getDoubleDiscardCard_eq_conditions R orderOfDiscardedCard gameState
    variant, ?_⟩
  intro i hand hcpi hh hlk
  have hcond : doubleDiscardConditions R orderOfDiscardedCard gameState
      variant = false := by
    unfold doubleDiscardConditions nextPlayerHandLocked
    simp only [hcpi, hh, hlk]
    cases gameState.deck.get? orderOfDiscardedCard with
    | none => rfl
    | some cd => cases hsi : cd.suitIndex <;> cases hr : cd.rank <;> simp_all
  rw [getDoubleDiscardCard_eq_conditions R orderOfDiscardedCard gameState
    variant, hcond]
  simp

/-- Variant for the double-discard witness: a single suit. -/
def ddVariant : Variant := ⟨[⟨"Red"⟩], false⟩

/-- Rules for the double-discard witness: the hand is never locked, the
card is needed, two copies exist and one is discarded. -/
def ddRules : GameRules :=
  ⟨fun _ => true, fun _ _ _ _ _ _ _ => false, fun _ _ => false,
   fun _ _ _ _ _ _ _ => true, fun _ _ _ => 2, fun _ _ _ => 1⟩

/-- Rules identical to `ddRules` except that every hand counts as
locked. -/
def ddRulesLocked : GameRules :=
  ⟨fun _ => true, fun _ _ _ _ _ _ _ => false, fun _ _ => true,
   fun _ _ _ _ _ _ _ => true, fun _ _ _ => 2, fun _ _ _ => 1⟩

/-- Game state for the double-discard witness: one discarded card of known
identity and a one-player hand list. -/
def ddGameState : GameState :=
  ⟨[⟨0, some 0, some 1, CardLocation.discard, false, []⟩], ⟨some 0⟩,
   [[0]], [[]], [0], [1]⟩

/-- Witness for C4: with all conditions satisfied the discarded order is
returned, and with a locked next hand the result is `null`. -/
theorem getDoubleDiscardCard_spec_witness :
    getDoubleDiscardCard ddRules 0 ddGameState ddVariant = some 0 ∧
    getDoubleDiscardCard ddRulesLocked 0 ddGameState ddVariant = none :=
  ⟨by
    rw [(getDoubleDiscardCard_spec ddRules 0 ddGameState ddVariant).1]
    decide,
   (getDoubleDiscardCard_spec ddRulesLocked 0 ddGameState ddVariant).2 0 [0]
     rfl rfl rfl⟩

/-- C10: `getDoubleDiscardCard` returns either `null` or exactly the order
it was given; it never returns another card's order. -/
theorem getDoubleDiscardCard_null_or_input (R : GameRules)
    (orderOfDiscardedCard : Nat) (gameState : GameState) (variant : Variant) :
    getDoubleDiscardCard R orderOfDiscardedCard gameState variant = none ∨
    getDoubleDiscardCard R orderOfDiscardedCard gameState variant =
      some orderOfDiscardedCard := by
  rw [getDoubleDiscardCard_eq_conditions R orderOfDiscardedCard gameState
    variant]
  cases doubleDiscardConditions R orderOfDiscardedCard gameState variant <;>
    simp
